import Mathlib

/-! # Instancing experiment: the frame loop of `src/main.cpp`

A shallow embedding of the benchmark driver in `main`: the startup loop that
fills the transform pool, the per-frame timing accumulation, the three key
handlers, the one-second rollover branch and the 3D draw section.

Conventions of the embedding.

* `int` and `long` variables are `Int`.  Every arithmetic operation on
  `instances` is guarded (`< MAX_INSTANCES` before `+= 1000`, `>= 2000` before
  `-= 1000`), so it never leaves the range of a 32-bit `int`.
* `double` variables (`time`, `milliseconds`, `delta`) are exact rationals.
  The result of a `double` division, which can be a NaN or an infinity, is a
  `DoubleVal`.
* The calls into raylib and the standard library are inputs: the clock reading
  and the three `IsKeyPressed` answers of a frame are an `Input`, the random
  source is a state-passing function, `std::to_string` on a `double` is a
  function `ts : DoubleVal → String`, and the draw calls are recorded as a
  list of `DrawCmd`.
-/

namespace InstancingExperiment

/-! ## Data model -/

/-- The capacity of the pool: `#define MAX_INSTANCES 300000`. -/
def MAX_INSTANCES : Nat := 300000

/-- The value of a `double` expression `x / n`: IEEE 754 gives a NaN for
`0 / 0`, a signed infinity for a nonzero numerator over zero, and the
quotient otherwise. -/
inductive DoubleVal where
  | nan : DoubleVal
  | posInf : DoubleVal
  | negInf : DoubleVal
  | finite (q : ℚ) : DoubleVal
  deriving DecidableEq

/-- The expression `milliseconds / frames` (`double` over `long`). -/
def divDouble (x : ℚ) (n : Int) : DoubleVal :=
  if n = 0 then
    if x = 0 then DoubleVal.nan
    else if 0 < x then DoubleVal.posInf
    else DoubleVal.negInf
  else DoubleVal.finite (x / (n : ℚ))

/-- The local variables of `main` that live across frames (lines 79-90). -/
structure State where
  lastUpdate : Int
  frames : Int
  time : ℚ
  milliseconds : ℚ
  instances : Int
  instancing : Bool
  avgMilliseconds : String
  currentInstances : String
  maxInstances : String
  isInstancing : String
  instancingText : String
  deriving DecidableEq

/-- What one iteration of the loop reads from its environment: the clock
(`GET_TIME`) and the pressed edges of the three keys. -/
structure Input where
  now : Int
  keyUp : Bool
  keyDown : Bool
  keySpace : Bool
  deriving DecidableEq

/-- A draw call of the 3D section: `DrawMeshInstanced(cube, matInstances,
transforms, instances)` or `DrawMesh(cube, mat, transform)`. -/
inductive DrawCmd (M : Type) where
  | meshInstanced (transforms : List M) (instances : Int) : DrawCmd M
  | mesh (transform : M) : DrawCmd M

/-- What one iteration of the loop emits: the line written to `std::cout` by
the rollover branch (if it ran), the draw calls of the 3D section (`none` when
the loop would read outside the pool), and the four overlay texts. -/
structure FrameOutput (M : Type) where
  log : Option String
  draws : Option (List (DrawCmd M))
  overlay : List String

/-- The text `(instancing) ? "true" : "false"`. -/
def boolText (b : Bool) : String := if b then "true" else "false"

/-- The state set up at lines 79-90; `t0` is the clock reading taken at
line 79. -/
def init (t0 : Int) : State :=
  let frames : Int := 0
  let time : ℚ := 0
  let milliseconds : ℚ := 0
  let instances : Int := 30000
  let instancing : Bool := false
  let isInstancing := boolText instancing
  { lastUpdate := t0
    frames := frames
    time := time
    milliseconds := milliseconds
    instances := instances
    instancing := instancing
    avgMilliseconds := "Average Frame Time: " ++ toString (0 : Int) ++ " ms"
    currentInstances := "Instances: " ++ toString instances
    maxInstances := "Max Instances: " ++ toString MAX_INSTANCES
    isInstancing := isInstancing
    instancingText := "Using Instancing: " ++ isInstancing }

/-! ## The frame loop -/

/-- Lines 95-102: the time since the previous iteration, in seconds. -/
def frameDelta (inp : Input) (s : State) : ℚ :=
  let timeDiff : Int := inp.now - s.lastUpdate
  (timeDiff : ℚ) / 1000000000

/-- Lines 95-102: per-frame accumulation. -/
def accumulate (inp : Input) (s : State) : State :=
  let timeDiff : Int := inp.now - s.lastUpdate
  let delta : ℚ := (timeDiff : ℚ) / 1000000000
  { s with
    lastUpdate := s.lastUpdate + timeDiff
    time := s.time + delta
    frames := s.frames + 1
    milliseconds := s.milliseconds + delta * 1000 }

/-- Lines 112-120: `if (IsKeyPressed(KEY_UP) && instances < MAX_INSTANCES)`. -/
def keyUpHandler (ts : DoubleVal → String) (pressed : Bool) (s : State) : State :=
  if pressed && decide (s.instances < (MAX_INSTANCES : Int)) then
    let instances := s.instances + 1000
    let milliseconds : ℚ := 0
    let frames : Int := 0
    { s with
      instances := instances
      currentInstances := "Instances: " ++ toString instances
      milliseconds := milliseconds
      frames := frames
      time := 0
      avgMilliseconds :=
        "Average Frame Time: " ++ ts (divDouble milliseconds frames) ++ " ms" }
  else s

/-- Lines 122-130: `if (IsKeyPressed(KEY_DOWN) && instances >= 2000)`. -/
def keyDownHandler (ts : DoubleVal → String) (pressed : Bool) (s : State) : State :=
  if pressed && decide (s.instances ≥ 2000) then
    let instances := s.instances - 1000
    let milliseconds : ℚ := 0
    let frames : Int := 0
    { s with
      instances := instances
      currentInstances := "Instances: " ++ toString instances
      milliseconds := milliseconds
      frames := frames
      time := 0
      avgMilliseconds :=
        "Average Frame Time: " ++ ts (divDouble milliseconds frames) ++ " ms" }
  else s

/-- Lines 132-141: `if (IsKeyPressed(KEY_SPACE))`. -/
def keySpaceHandler (ts : DoubleVal → String) (pressed : Bool) (s : State) : State :=
  if pressed then
    let instancing := !s.instancing
    let milliseconds : ℚ := 0
    let frames : Int := 0
    let isInstancing := boolText instancing
    { s with
      instancing := instancing
      milliseconds := milliseconds
      frames := frames
      time := 0
      avgMilliseconds :=
        "Average Frame Time: " ++ ts (divDouble milliseconds frames) ++ " ms"
      isInstancing := isInstancing
      instancingText := "Using Instancing: " ++ isInstancing }
  else s

/-- Lines 112-141: the three handlers, in source order. -/
def processKeys (ts : DoubleVal → String) (inp : Input) (s : State) : State :=
  keySpaceHandler ts inp.keySpace
    (keyDownHandler ts inp.keyDown (keyUpHandler ts inp.keyUp s))

/-- Lines 144-149: the rollover branch, with the line it writes to
`std::cout`. -/
def rollover (ts : DoubleVal → String) (s : State) : State × Option String :=
  if s.time > 1 then
    ({ s with
       avgMilliseconds :=
         "Average Frame Time: " ++ ts (divDouble s.milliseconds s.frames) ++ " ms"
       time := 0 },
     some (toString s.instances ++ " " ++ ts (divDouble s.milliseconds s.frames)))
  else (s, none)

/-- Lines 162-163: `for (int i = 0; i < instances; i++) DrawMesh(cube, mat,
transforms[i]);`, started at index `i`.  Reading past the end of the pool has
no defined result. -/
def drawLoop {M : Type} (transforms : List M) (instances : Int) (i : Nat) :
    Option (List (DrawCmd M)) :=
  if _h : (i : Int) < instances then
    match transforms[i]? with
    | none => none
    | some t =>
      match drawLoop transforms instances (i + 1) with
      | none => none
      | some rest => some (DrawCmd.mesh t :: rest)
  else some []
termination_by (instances - (i : Int)).toNat
decreasing_by omega

/-- Lines 156-167: the 3D section. -/
def draw3D {M : Type} (transforms : List M) (s : State) : Option (List (DrawCmd M)) :=
  if s.instancing then
    some [DrawCmd.meshInstanced transforms s.instances]
  else
    drawLoop transforms s.instances 0

/-- The state at the rollover check (line 144) of a frame started in `s`. -/
def atCheck (ts : DoubleVal → String) (inp : Input) (s : State) : State :=
  processKeys ts inp (accumulate inp s)

/-- One iteration of the `while` loop (lines 95-174). -/
def frame {M : Type} (ts : DoubleVal → String) (transforms : List M) (inp : Input)
    (s : State) : State × FrameOutput M :=
  let s1 := accumulate inp s
  let s2 := processKeys ts inp s1
  let r := rollover ts s2
  (r.1,
   { log := r.2
     draws := draw3D transforms r.1
     overlay := [r.1.avgMilliseconds, r.1.currentInstances, r.1.maxInstances,
       r.1.instancingText] })

/-- The state after one iteration. -/
def frameState (ts : DoubleVal → String) (inp : Input) (s : State) : State :=
  (rollover ts (atCheck ts inp s)).1

/-- The state after the loop has run once for each entry of `inputs`. -/
def run (ts : DoubleVal → String) (s : State) (inputs : List Input) : State :=
  inputs.foldl (fun st inp => frameState ts inp st) s

/-! ## Key events -/

/-- A pressed edge of the increase key or of the decrease key. -/
inductive KeyEvent where
  | increase : KeyEvent
  | decrease : KeyEvent
  deriving DecidableEq

/-- The handler a key event runs, with `IsKeyPressed` answering true. -/
def applyEvent (ts : DoubleVal → String) (e : KeyEvent) (s : State) : State :=
  match e with
  | KeyEvent.increase => keyUpHandler ts true s
  | KeyEvent.decrease => keyDownHandler ts true s

/-- The state after a sequence of key events, oldest first. -/
def applyEvents (ts : DoubleVal → String) (s : State) (es : List KeyEvent) : State :=
  es.foldl (fun st e => applyEvent ts e st) s

/-- The toggle-key handler run `n` times, `IsKeyPressed(KEY_SPACE)` answering
true each time. -/
def toggleTimes (ts : DoubleVal → String) (n : Nat) (s : State) : State :=
  (keySpaceHandler ts true)^[n] s

/-- Whether the key section of a frame, entered in state `s`, held a
state-changing key event: an increase or a decrease that changed `instances`,
or a mode toggle. -/
def keyEventFired (ts : DoubleVal → String) (inp : Input) (s : State) : Bool :=
  let s1 := keyUpHandler ts inp.keyUp s
  let s2 := keyDownHandler ts inp.keyDown s1
  let s3 := keySpaceHandler ts inp.keySpace s2
  decide (s1.instances ≠ s.instances) || decide (s2.instances ≠ s1.instances)
    || decide (s3.instancing ≠ s2.instancing)

/-! ## Frame history -/

/-- What is remembered of a past frame: its `delta` in seconds and whether its
key section held a state-changing key event. -/
structure FrameRecord where
  delta : ℚ
  keyEvent : Bool
  deriving DecidableEq

/-- The records of the frames run from `s` on `inputs`, most recent first,
put in front of the older records `acc`. -/
def history (ts : DoubleVal → String) :
    State → List Input → List FrameRecord → List FrameRecord
  | _, [], acc => acc
  | s, inp :: rest, acc =>
    history ts (frameState ts inp s) rest
      ({ delta := frameDelta inp s
         keyEvent := keyEventFired ts inp (accumulate inp s) } :: acc)

/-- The records of the frames since the most recent state-changing key event
(all of them when there was none), most recent first. -/
def sinceLastEvent (h : List FrameRecord) : List FrameRecord :=
  h.takeWhile (fun r => !r.keyEvent)

/-- The sum of the deltas of a list of frame records. -/
def deltaSum (h : List FrameRecord) : ℚ :=
  (h.map (fun r => r.delta)).sum

/-! ## Transform generation -/

/-- The integer arguments from which lines 29-34 build `transforms[i]`: the
translation `(tx, ty, tz)`, the rotation axis `(ax, ay, az)` before it is
normalised, and the rotation angle in degrees before it is multiplied by
`DEG2RAD`. -/
structure TransformArgs where
  tx : Int
  ty : Int
  tz : Int
  ax : Int
  ay : Int
  az : Int
  angleDeg : Int
  deriving DecidableEq

/-- Lines 29-31: the seven `GetRandomValue(min, max)` calls of one loop
iteration; `rnd g min max` is the value returned together with the next state
of the random source. -/
def genTransform {G : Type} (rnd : G → Int → Int → Int × G) (g : G) : TransformArgs × G :=
  let r1 := rnd g (-100) 100
  let r2 := rnd r1.2 (-100) 100
  let r3 := rnd r2.2 (-100) 100
  let r4 := rnd r3.2 0 360
  let r5 := rnd r4.2 0 360
  let r6 := rnd r5.2 0 360
  let r7 := rnd r6.2 0 10
  ({ tx := r1.1, ty := r2.1, tz := r3.1, ax := r4.1, ay := r5.1, az := r6.1,
     angleDeg := r7.1 }, r7.2)

/-- Lines 27-35: `n` iterations of the generation loop. -/
def generateLoop {G : Type} (rnd : G → Int → Int → Int × G) : Nat → G → List TransformArgs
  | 0, _ => []
  | n + 1, g =>
    let r := genTransform rnd g
    r.1 :: generateLoop rnd n r.2

/-- Lines 24-35: the pool, `MAX_INSTANCES` generated entries. -/
def generateTransforms {G : Type} (rnd : G → Int → Int → Int × G) (g : G) :
    List TransformArgs :=
  generateLoop rnd MAX_INSTANCES g

/-! ## Runs from startup and concrete inputs -/

/-- A text for each `double` value, `ts` for the concrete runs below: the
rational itself where `std::to_string` prints six decimals of it. -/
def plainText : DoubleVal → String
  | DoubleVal.nan => "nan"
  | DoubleVal.posInf => "inf"
  | DoubleVal.negInf => "-inf"
  | DoubleVal.finite q => toString q

/-- The state at the rollover check of the frame that follows the frames
`inputs`, in a run of the loop from startup at clock reading `t0`. -/
def checkState (ts : DoubleVal → String) (t0 : Int) (inputs : List Input) (inp : Input) :
    State :=
  atCheck ts inp (run ts (init t0) inputs)

/-- The records of all frames of a run from startup, most recent first. -/
def frameHistory (ts : DoubleVal → String) (t0 : Int) (inputs : List Input) :
    List FrameRecord :=
  history ts (init t0) inputs []

/-- The statistics agree with the history: `frames` counts the frames since
the most recent state-changing key event and `milliseconds` is 1000 times
the sum of their deltas. -/
def StatsOK (s : State) (h : List FrameRecord) : Prop :=
  s.frames = ((sinceLastEvent h).length : Int) ∧
  s.milliseconds = 1000 * deltaSum (sinceLastEvent h)

/-- The bounds lines 29-31 ask of the random source for the entries the
claims speak of: the translation components and the angle in degrees. -/
def ArgsInRange (t : TransformArgs) : Prop :=
  (0 ≤ t.angleDeg ∧ t.angleDeg ≤ 10) ∧
  (-100 ≤ t.tx ∧ t.tx ≤ 100) ∧ (-100 ≤ t.ty ∧ t.ty ≤ 100) ∧ (-100 ≤ t.tz ∧ t.tz ≤ 100)

/-- A random source for concrete runs: it answers with the lower and the
upper bound in turn. -/
def alternatingSource (g : Nat) (lo hi : Int) : Int × Nat :=
  (if g % 2 = 0 then lo else hi, g + 1)

/-- The frame that follows the frames `inputs` in a run of the loop from
startup at clock reading `t0`: its final state and what it emits. -/
def lastFrame {M : Type} (ts : DoubleVal → String) (transforms : List M) (t0 : Int)
    (inputs : List Input) (inp : Input) : State × FrameOutput M :=
  frame ts transforms inp (run ts (init t0) inputs)

/-! ## Invariants -/

/-- The range invariant of `instances`: a multiple of 1000 between 1000 and
`MAX_INSTANCES`. -/
def CountOK (s : State) : Prop :=
  1000 ≤ s.instances ∧ s.instances ≤ (MAX_INSTANCES : Int) ∧ s.instances % 1000 = 0

/-- The frame counter is never negative. -/
def FramesOK (s : State) : Prop := 0 ≤ s.frames

/-! ## Lemmas -/

theorem countOK_init (t0 : Int) : CountOK (init t0) := by
  simp [CountOK, init, MAX_INSTANCES]

theorem countOK_keyUp (ts : DoubleVal → String) (b : Bool) (s : State) (h : CountOK s) :
    CountOK (keyUpHandler ts b s) := by
  unfold CountOK at *
  unfold keyUpHandler
  simp only [MAX_INSTANCES] at *
  split
  · rename_i hc
    simp only [Bool.and_eq_true, decide_eq_true_eq] at hc
    simp only
    omega
  · exact h

theorem countOK_keyDown (ts : DoubleVal → String) (b : Bool) (s : State) (h : CountOK s) :
    CountOK (keyDownHandler ts b s) := by
  unfold CountOK at *
  unfold keyDownHandler
  simp only [MAX_INSTANCES] at *
  split
  · rename_i hc
    simp only [Bool.and_eq_true, decide_eq_true_eq] at hc
    simp only
    omega
  · exact h

theorem countOK_keySpace (ts : DoubleVal → String) (b : Bool) (s : State) (h : CountOK s) :
    CountOK (keySpaceHandler ts b s) := by
  unfold CountOK at *
  unfold keySpaceHandler
  split <;> simpa using h

theorem countOK_frameState (ts : DoubleVal → String) (inp : Input) (s : State)
    (h : CountOK s) : CountOK (frameState ts inp s) := by
  have h1 : CountOK (accumulate inp s) := by
    unfold CountOK at *; simpa [accumulate] using h
  have h2 : CountOK (atCheck ts inp s) :=
    countOK_keySpace ts _ _ (countOK_keyDown ts _ _ (countOK_keyUp ts _ _ h1))
  unfold frameState rollover
  split
  · unfold CountOK at *; simpa using h2
  · exact h2

theorem countOK_run (ts : DoubleVal → String) (inputs : List Input) (s : State)
    (h : CountOK s) : CountOK (run ts s inputs) := by
  induction inputs generalizing s with
  | nil => simpa [run] using h
  | cons inp rest ih =>
    simpa [run] using ih (frameState ts inp s) (countOK_frameState ts inp s h)

theorem countOK_applyEvents (ts : DoubleVal → String) (es : List KeyEvent) (s : State)
    (h : CountOK s) : CountOK (applyEvents ts s es) := by
  induction es generalizing s with
  | nil => simpa [applyEvents] using h
  | cons e rest ih =>
    have h1 : CountOK (applyEvent ts e s) := by
      cases e
      · exact countOK_keyUp ts true s h
      · exact countOK_keyDown ts true s h
    simpa [applyEvents] using ih (applyEvent ts e s) h1

theorem applyEvent_step (ts : DoubleVal → String) (e : KeyEvent) (s : State) :
    (applyEvent ts e s).instances = s.instances ∨
    (applyEvent ts e s).instances = s.instances + 1000 ∨
    (applyEvent ts e s).instances = s.instances - 1000 := by
  cases e
  · simp only [applyEvent, keyUpHandler]
    split <;> simp
  · simp only [applyEvent, keyDownHandler]
    split <;> simp

theorem instances_after_increases (ts : DoubleVal → String) (n : Nat) (s : State)
    (h : s.instances + 1000 * (n : Int) ≤ 300000) :
    (applyEvents ts s (List.replicate n KeyEvent.increase)).instances
      = s.instances + 1000 * (n : Int) := by
  induction n generalizing s with
  | zero => simp [applyEvents]
  | succ k ih =>
    have hlt : s.instances < (MAX_INSTANCES : Int) := by
      simp only [MAX_INSTANCES]; push_cast at h ⊢; omega
    have h1 : (keyUpHandler ts true s).instances = s.instances + 1000 := by
      simp [keyUpHandler, hlt]
    have h2 := ih (keyUpHandler ts true s) (by rw [h1]; push_cast at h ⊢; omega)
    simp only [applyEvents, List.replicate, List.foldl_cons, applyEvent] at h2 ⊢
    rw [h2, h1]; push_cast; ring

theorem processKeys_of_not_fired (ts : DoubleVal → String) (inp : Input) (s : State)
    (h : keyEventFired ts inp s = false) : processKeys ts inp s = s := by
  unfold keyEventFired at h
  unfold processKeys
  simp only [keyUpHandler, keyDownHandler, keySpaceHandler] at h ⊢
  split_ifs at h ⊢ <;> simp_all

theorem processKeys_of_fired (ts : DoubleVal → String) (inp : Input) (s : State)
    (h : keyEventFired ts inp s = true) :
    (processKeys ts inp s).milliseconds = 0 ∧
    (processKeys ts inp s).frames = 0 ∧ (processKeys ts inp s).time = 0 := by
  unfold keyEventFired at h
  unfold processKeys
  simp only [keyUpHandler, keyDownHandler, keySpaceHandler] at h ⊢
  split_ifs at h ⊢ <;> simp_all

theorem rollover_frames (ts : DoubleVal → String) (s : State) :
    (rollover ts s).1.frames = s.frames := by
  unfold rollover; split <;> rfl

theorem rollover_milliseconds (ts : DoubleVal → String) (s : State) :
    (rollover ts s).1.milliseconds = s.milliseconds := by
  unfold rollover; split <;> rfl

theorem framesOK_atCheck (ts : DoubleVal → String) (inp : Input) (s : State)
    (h : FramesOK s) : FramesOK (atCheck ts inp s) := by
  unfold FramesOK at *
  cases hf : keyEventFired ts inp (accumulate inp s) with
  | true =>
    have := (processKeys_of_fired ts inp _ hf).2.1
    unfold atCheck; omega
  | false =>
    unfold atCheck
    rw [processKeys_of_not_fired ts inp _ hf]
    simp only [accumulate]; omega

theorem framesOK_run (ts : DoubleVal → String) (inputs : List Input) (s : State)
    (h : FramesOK s) : FramesOK (run ts s inputs) := by
  induction inputs generalizing s with
  | nil => simpa [run] using h
  | cons inp rest ih =>
    have h1 : FramesOK (frameState ts inp s) := by
      have := framesOK_atCheck ts inp s h
      unfold FramesOK at *
      unfold frameState; rw [rollover_frames]; exact this
    simpa [run] using ih (frameState ts inp s) h1

theorem history_run (ts : DoubleVal → String) (inputs : List Input) (inp : Input)
    (s : State) (acc : List FrameRecord) :
    history ts s (inputs ++ [inp]) acc
      = { delta := frameDelta inp (run ts s inputs)
          keyEvent := keyEventFired ts inp (accumulate inp (run ts s inputs)) }
        :: history ts s inputs acc := by
  induction inputs generalizing s acc with
  | nil => simp [history, run]
  | cons i rest ih =>
    simp only [List.cons_append, history, run, List.foldl_cons]
    exact ih _ _

theorem statsOK_atCheck (ts : DoubleVal → String) (inp : Input) (s : State)
    (h : List FrameRecord) (hs : StatsOK s h) :
    StatsOK (atCheck ts inp s)
      ({ delta := frameDelta inp s
         keyEvent := keyEventFired ts inp (accumulate inp s) } :: h) := by
  unfold StatsOK at *
  cases hf : keyEventFired ts inp (accumulate inp s) with
  | true =>
    have h0 := processKeys_of_fired ts inp _ hf
    unfold atCheck
    rw [h0.1, h0.2.1]
    simp [sinceLastEvent, deltaSum]
  | false =>
    unfold atCheck
    rw [processKeys_of_not_fired ts inp _ hf]
    have e : sinceLastEvent
        (({ delta := frameDelta inp s, keyEvent := false } : FrameRecord) :: h)
        = { delta := frameDelta inp s, keyEvent := false } :: sinceLastEvent h := by
      simp [sinceLastEvent]
    rw [e]
    simp only [accumulate, frameDelta, deltaSum, List.length_cons, List.map_cons,
      List.sum_cons]
    rw [hs.1, hs.2]
    constructor
    · push_cast; ring
    · simp only [deltaSum]; ring

theorem statsOK_frameState (ts : DoubleVal → String) (inp : Input) (s : State)
    (h : List FrameRecord) (hs : StatsOK s h) :
    StatsOK (frameState ts inp s)
      ({ delta := frameDelta inp s
         keyEvent := keyEventFired ts inp (accumulate inp s) } :: h) := by
  have := statsOK_atCheck ts inp s h hs
  unfold StatsOK at *
  unfold frameState
  rw [rollover_frames, rollover_milliseconds]
  exact this

theorem statsOK_run (ts : DoubleVal → String) (inputs : List Input) (s : State)
    (acc : List FrameRecord) (hs : StatsOK s acc) :
    StatsOK (run ts s inputs) (history ts s inputs acc) := by
  induction inputs generalizing s acc with
  | nil => simpa [run, history] using hs
  | cons i rest ih =>
    simp only [history, run, List.foldl_cons]
    exact ih _ _ (statsOK_frameState ts i s acc hs)

theorem statsOK_init (t0 : Int) : StatsOK (init t0) [] := by
  simp [StatsOK, init, sinceLastEvent, deltaSum]

theorem takeWhile_eq_take {α : Type} (p : α → Bool) (l : List α) :
    l.takeWhile p = l.take (l.takeWhile p).length := by
  induction l with
  | nil => simp
  | cons a t ih =>
    by_cases hp : p a = true
    · simp only [List.takeWhile_cons, hp, if_true, List.length_cons, List.take_succ_cons]
      rw [← ih]
    · simp [List.takeWhile_cons, hp]

theorem frames_pos_of_rollover (ts : DoubleVal → String) (inp : Input) (s : State)
    (hs : FramesOK s) (h : (atCheck ts inp s).time > 1) :
    keyEventFired ts inp (accumulate inp s) = false ∧
    (atCheck ts inp s).frames = s.frames + 1 ∧ 1 ≤ (atCheck ts inp s).frames := by
  have hf : keyEventFired ts inp (accumulate inp s) = false := by
    cases hk : keyEventFired ts inp (accumulate inp s) with
    | false => rfl
    | true =>
      have h0 := (processKeys_of_fired ts inp _ hk).2.2
      unfold atCheck at h
      rw [h0] at h
      exact absurd h (by norm_num)
  have hc : atCheck ts inp s = accumulate inp s := processKeys_of_not_fired ts inp _ hf
  have hfr : (atCheck ts inp s).frames = s.frames + 1 := by rw [hc]; rfl
  unfold FramesOK at hs
  exact ⟨hf, hfr, by omega⟩

theorem divDouble_of_pos (x : ℚ) (n : Int) (h : 1 ≤ n) :
    divDouble x n = DoubleVal.finite (x / (n : ℚ)) := by
  unfold divDouble
  rw [if_neg (by omega)]

theorem drawLoop_eq {M : Type} (transforms : List M) (instances : Int)
    (hle : instances ≤ (transforms.length : Int)) (k : Nat) :
    ∀ i : Nat, (instances - (i : Int)).toNat = k →
      drawLoop transforms instances i
        = some (((transforms.drop i).take k).map DrawCmd.mesh) := by
  induction k with
  | zero =>
    intro i hk
    rw [drawLoop, dif_neg (by omega)]
    simp
  | succ k ih =>
    intro i hk
    have hlt : (i : Int) < instances := by omega
    have hi : i < transforms.length := by omega
    rw [drawLoop, dif_pos hlt, List.getElem?_eq_getElem hi]
    simp only
    rw [ih (i + 1) (by omega)]
    simp only
    rw [List.drop_eq_getElem_cons hi, List.take_succ_cons, List.map_cons]

theorem draw3D_perObject {M : Type} (transforms : List M) (s : State)
    (hle : s.instances ≤ (transforms.length : Int)) (hm : s.instancing = false) :
    draw3D transforms s = some ((transforms.take s.instances.toNat).map DrawCmd.mesh) := by
  unfold draw3D
  rw [hm]
  simp only [Bool.false_eq_true, if_false]
  rw [drawLoop_eq transforms s.instances hle s.instances.toNat 0 (by simp)]
  simp

theorem genTransform_inRange {G : Type} (rnd : G → Int → Int → Int × G)
    (hrnd : ∀ (g : G) (lo hi : Int), lo ≤ hi → lo ≤ (rnd g lo hi).1 ∧ (rnd g lo hi).1 ≤ hi)
    (g : G) : ArgsInRange (genTransform rnd g).1 := by
  unfold ArgsInRange genTransform
  simp only
  exact ⟨hrnd _ 0 10 (by decide), hrnd _ (-100) 100 (by decide),
    hrnd _ (-100) 100 (by decide), hrnd _ (-100) 100 (by decide)⟩

theorem generateLoop_length {G : Type} (rnd : G → Int → Int → Int × G) (n : Nat) (g : G) :
    (generateLoop rnd n g).length = n := by
  induction n generalizing g with
  | zero => simp [generateLoop]
  | succ k ih => simp [generateLoop, ih]

theorem generateLoop_inRange {G : Type} (rnd : G → Int → Int → Int × G)
    (hrnd : ∀ (g : G) (lo hi : Int), lo ≤ hi → lo ≤ (rnd g lo hi).1 ∧ (rnd g lo hi).1 ≤ hi)
    (n : Nat) : ∀ (g : G) (i : Nat), i < n →
      ∃ t, (generateLoop rnd n g)[i]? = some t ∧ ArgsInRange t := by
  induction n with
  | zero => intro g i hi; omega
  | succ k ih =>
    intro g i hi
    cases i with
    | zero => exact ⟨_, by simp [generateLoop], genTransform_inRange rnd hrnd g⟩
    | succ j =>
      obtain ⟨t, ht, hb⟩ := ih (genTransform rnd g).2 j (by omega)
      exact ⟨t, by simpa [generateLoop] using ht, hb⟩

theorem alternatingSource_inRange (g : Nat) (lo hi : Int) (h : lo ≤ hi) :
    lo ≤ (alternatingSource g lo hi).1 ∧ (alternatingSource g lo hi).1 ≤ hi := by
  unfold alternatingSource
  split <;> simp [h]

theorem toggle_twice (ts : DoubleVal → String) (s : State) :
    (keySpaceHandler ts true (keySpaceHandler ts true s)).instancing = s.instancing := by
  simp [keySpaceHandler]

theorem toggleTimes_succ (ts : DoubleVal → String) (n : Nat) (s : State) :
    (toggleTimes ts (n + 1) s).instancing = !(toggleTimes ts n s).instancing := by
  unfold toggleTimes
  rw [Function.iterate_succ_apply']
  simp [keySpaceHandler]

/-! ## The instance count under key events -/

/-- C1, as stated, fails: 29 decrease-key events from the initial state bring
`instances` to 1000, below 2000 (the guard `instances >= 2000` lets the
decrement run at 2000). -/
theorem instances_floor_counterexample :
    (applyEvents plainText (init 0) (List.replicate 29 KeyEvent.decrease)).instances = 1000 ∧
    ¬ (2000 ≤ (applyEvents plainText (init 0)
        (List.replicate 29 KeyEvent.decrease)).instances) := by
  have h : (applyEvents plainText (init 0)
      (List.replicate 29 KeyEvent.decrease)).instances = 1000 := by
    simp [applyEvents, applyEvent, keyDownHandler, init, List.replicate]
  rw [h]
  exact ⟨rfl, by decide⟩

/-- C1, amended: from the initial state, after every finite sequence of
increase-key and decrease-key events `instances` lies between 1000 and
`MAX_INSTANCES`, and a further event changes it by exactly 0, +1000 or
-1000. -/
theorem instances_range_and_step (ts : DoubleVal → String) (t0 : Int) (es : List KeyEvent) :
    (1000 ≤ (applyEvents ts (init t0) es).instances ∧
      (applyEvents ts (init t0) es).instances ≤ 300000) ∧
    ∀ e : KeyEvent,
      (applyEvents ts (init t0) (es ++ [e])).instances
          = (applyEvents ts (init t0) es).instances + 0 ∨
      (applyEvents ts (init t0) (es ++ [e])).instances
          = (applyEvents ts (init t0) es).instances + 1000 ∨
      (applyEvents ts (init t0) (es ++ [e])).instances
          = (applyEvents ts (init t0) es).instances - 1000 := by
  have h := countOK_applyEvents ts es (init t0) (countOK_init t0)
  refine ⟨⟨h.1, by simpa [MAX_INSTANCES] using h.2.1⟩, ?_⟩
  intro e
  have hs : applyEvents ts (init t0) (es ++ [e])
      = applyEvent ts e (applyEvents ts (init t0) es) := by
    simp [applyEvents, List.foldl_append]
  rw [hs, add_zero]
  exact applyEvent_step ts e _

/-- C2: from the initial state (30000 instances, per-object mode), three
increase-key events give 33000 instances, 31 decrease-key events then give
2000, one toggle-key event then gives instanced mode, and one more gives
per-object mode again. -/
theorem end_to_end_scenario (ts : DoubleVal → String) (t0 : Int) :
    (init t0).instances = 30000 ∧ (init t0).instancing = false ∧
    (applyEvents ts (init t0) (List.replicate 3 KeyEvent.increase)).instances = 33000 ∧
    (applyEvents ts (applyEvents ts (init t0) (List.replicate 3 KeyEvent.increase))
      (List.replicate 31 KeyEvent.decrease)).instances = 2000 ∧
    (keySpaceHandler ts true
      (applyEvents ts (applyEvents ts (init t0) (List.replicate 3 KeyEvent.increase))
        (List.replicate 31 KeyEvent.decrease))).instancing = true ∧
    (keySpaceHandler ts true (keySpaceHandler ts true
      (applyEvents ts (applyEvents ts (init t0) (List.replicate 3 KeyEvent.increase))
        (List.replicate 31 KeyEvent.decrease)))).instancing = false := by
  simp [applyEvents, applyEvent, keyUpHandler, keyDownHandler, keySpaceHandler, init,
    List.replicate, MAX_INSTANCES]

/-- C3: in a state with `instances = MAX_INSTANCES` the increase-key handler
changes nothing: the whole state, and so the count, the millisecond
accumulator, the frame counter, the elapsed time and the display strings, is
as before; a key section with only the increase key pressed is a no-op too. -/
theorem increase_at_capacity_noop (ts : DoubleVal → String) (s : State)
    (h : s.instances = (MAX_INSTANCES : Int)) :
    keyUpHandler ts true s = s ∧
    (keyUpHandler ts true s).instances = s.instances ∧
    (keyUpHandler ts true s).milliseconds = s.milliseconds ∧
    (keyUpHandler ts true s).frames = s.frames ∧
    (keyUpHandler ts true s).time = s.time ∧
    (keyUpHandler ts true s).avgMilliseconds = s.avgMilliseconds ∧
    (keyUpHandler ts true s).currentInstances = s.currentInstances ∧
    (keyUpHandler ts true s).maxInstances = s.maxInstances ∧
    (keyUpHandler ts true s).instancingText = s.instancingText ∧
    ∀ now : Int, processKeys ts ⟨now, true, false, false⟩ s = s := by
  have hk : keyUpHandler ts true s = s := by
    simp [keyUpHandler, h]
  refine ⟨hk, ?_, ?_, ?_, ?_, ?_, ?_, ?_, ?_, ?_⟩
  all_goals first
    | rw [hk]
    | (intro now; simp [processKeys, hk, keyDownHandler, keySpaceHandler])

/-- C3, at a concrete state: the state reached from the initial one by 270
increase-key events has 300000 instances, and the handler leaves it alone. -/
theorem increase_at_capacity_noop_witness :
    (applyEvents plainText (init 0) (List.replicate 270 KeyEvent.increase)).instances
      = (MAX_INSTANCES : Int) ∧
    keyUpHandler plainText true
        (applyEvents plainText (init 0) (List.replicate 270 KeyEvent.increase))
      = applyEvents plainText (init 0) (List.replicate 270 KeyEvent.increase) :=
  ⟨instances_after_increases plainText 270 (init 0) (by decide),
   (increase_at_capacity_noop plainText _
     (instances_after_increases plainText 270 (init 0) (by decide))).1⟩

/-! ## Statistics resets -/

/-- C4: when the key section of a frame holds a state-changing key event (an
increase or decrease that changes `instances`, or a mode toggle), then when
the key section ends `milliseconds`, `frames` and `time` are all zero, and the
rollover branch of that frame does not run. -/
theorem key_event_resets_stats (ts : DoubleVal → String) (inp : Input) (s : State)
    (h : keyEventFired ts inp s = true) :
    (processKeys ts inp s).milliseconds = 0 ∧
    (processKeys ts inp s).frames = 0 ∧
    (processKeys ts inp s).time = 0 ∧
    rollover ts (processKeys ts inp s) = (processKeys ts inp s, none) := by
  have h3 := processKeys_of_fired ts inp s h
  refine ⟨h3.1, h3.2.1, h3.2.2, ?_⟩
  simp [rollover, h3.2.2]

/-- C4, at a concrete frame: the first frame, two seconds after startup, with
the increase key pressed. -/
theorem key_event_resets_stats_witness :
    keyEventFired plainText ⟨2000000000, true, false, false⟩
        (accumulate ⟨2000000000, true, false, false⟩ (init 0)) = true ∧
    (atCheck plainText ⟨2000000000, true, false, false⟩ (init 0)).milliseconds = 0 ∧
    (atCheck plainText ⟨2000000000, true, false, false⟩ (init 0)).frames = 0 ∧
    (atCheck plainText ⟨2000000000, true, false, false⟩ (init 0)).time = 0 :=
  have h := key_event_resets_stats plainText ⟨2000000000, true, false, false⟩
    (accumulate ⟨2000000000, true, false, false⟩ (init 0))
    (by simp [keyEventFired, keyUpHandler, keyDownHandler, keySpaceHandler, accumulate, init,
      MAX_INSTANCES])
  ⟨by simp [keyEventFired, keyUpHandler, keyDownHandler, keySpaceHandler, accumulate, init,
      MAX_INSTANCES], h.1, h.2.1, h.2.2.1⟩

/-- C5, as stated, fails: in the first frame, two seconds after startup and
with no key pressed, the rollover branch runs and leaves `milliseconds` at
2000, not at zero. -/
theorem rollover_milliseconds_counterexample :
    (atCheck plainText ⟨2000000000, false, false, false⟩ (init 0)).time > 1 ∧
    keyEventFired plainText ⟨2000000000, false, false, false⟩
      (accumulate ⟨2000000000, false, false, false⟩ (init 0)) = false ∧
    (rollover plainText
      (atCheck plainText ⟨2000000000, false, false, false⟩ (init 0))).1.milliseconds = 2000 ∧
    ¬ ((rollover plainText
      (atCheck plainText ⟨2000000000, false, false, false⟩ (init 0))).1.milliseconds = 0) := by
  have hf : keyEventFired plainText ⟨2000000000, false, false, false⟩
      (accumulate ⟨2000000000, false, false, false⟩ (init 0)) = false := by
    simp [keyEventFired, keyUpHandler, keyDownHandler, keySpaceHandler]
  have hc : atCheck plainText ⟨2000000000, false, false, false⟩ (init 0)
      = accumulate ⟨2000000000, false, false, false⟩ (init 0) :=
    processKeys_of_not_fired plainText _ _ hf
  rw [rollover_milliseconds, hc]
  refine ⟨?_, hf, ?_, ?_⟩ <;> norm_num [accumulate, init]

/-- C5, amended: in every frame whose rollover branch runs (`time > 1` at the
check) no state-changing key event happened in that frame, and the branch
resets `time` to zero while leaving both `milliseconds` and `frames` as they
were at the check. -/
theorem rollover_resets_time_only (ts : DoubleVal → String) (inp : Input) (s : State)
    (h : (atCheck ts inp s).time > 1) :
    keyEventFired ts inp (accumulate inp s) = false ∧
    (frameState ts inp s).time = 0 ∧
    (frameState ts inp s).milliseconds = (atCheck ts inp s).milliseconds ∧
    (frameState ts inp s).frames = (atCheck ts inp s).frames ∧
    (atCheck ts inp s).milliseconds = s.milliseconds + frameDelta inp s * 1000 ∧
    (atCheck ts inp s).frames = s.frames + 1 := by
  have hf : keyEventFired ts inp (accumulate inp s) = false := by
    cases hk : keyEventFired ts inp (accumulate inp s) with
    | false => rfl
    | true =>
      have h0 := (processKeys_of_fired ts inp _ hk).2.2
      unfold atCheck at h
      rw [h0] at h
      exact absurd h (by norm_num)
  have hc : atCheck ts inp s = accumulate inp s := processKeys_of_not_fired ts inp _ hf
  refine ⟨hf, ?_, ?_, ?_, ?_, ?_⟩
  · unfold frameState rollover
    rw [if_pos h]
  · unfold frameState
    rw [rollover_milliseconds]
  · unfold frameState
    rw [rollover_frames]
  · rw [hc]; rfl
  · rw [hc]; rfl

/-- C5 amended, at a concrete frame: the first frame, two seconds after
startup, with no key pressed. -/
theorem rollover_resets_time_only_witness :
    (atCheck plainText ⟨2000000000, false, false, false⟩ (init 0)).time > 1 ∧
    (frameState plainText ⟨2000000000, false, false, false⟩ (init 0)).time = 0 ∧
    (frameState plainText ⟨2000000000, false, false, false⟩ (init 0)).milliseconds
      = (atCheck plainText ⟨2000000000, false, false, false⟩ (init 0)).milliseconds ∧
    (frameState plainText ⟨2000000000, false, false, false⟩ (init 0)).frames
      = (atCheck plainText ⟨2000000000, false, false, false⟩ (init 0)).frames :=
  have hgt : (atCheck plainText ⟨2000000000, false, false, false⟩ (init 0)).time > 1 := by
    norm_num [atCheck, processKeys, keyUpHandler, keyDownHandler, keySpaceHandler,
      accumulate, init]
  have h := rollover_resets_time_only plainText ⟨2000000000, false, false, false⟩ (init 0) hgt
  ⟨hgt, h.2.1, h.2.2.1, h.2.2.2.1⟩

/-! ## The reported average -/

/-- C9: in every frame of a run from startup, when the rollover branch runs
(`time > 1` at the check) no state-changing key event happened in that frame,
the frame counter was incremented in that frame and is at least 1, and the
average `milliseconds / frames` is the finite quotient, not a division by
zero. -/
theorem rollover_divisor_positive (ts : DoubleVal → String) (t0 : Int)
    (inputs : List Input) (inp : Input) (h : (checkState ts t0 inputs inp).time > 1) :
    keyEventFired ts inp (accumulate inp (run ts (init t0) inputs)) = false ∧
    (checkState ts t0 inputs inp).frames = (run ts (init t0) inputs).frames + 1 ∧
    1 ≤ (checkState ts t0 inputs inp).frames ∧
    divDouble (checkState ts t0 inputs inp).milliseconds (checkState ts t0 inputs inp).frames
      = DoubleVal.finite ((checkState ts t0 inputs inp).milliseconds
          / ((checkState ts t0 inputs inp).frames : ℚ)) := by
  have hs : FramesOK (run ts (init t0) inputs) :=
    framesOK_run ts inputs (init t0) (by simp [FramesOK, init])
  have := frames_pos_of_rollover ts inp _ hs h
  exact ⟨this.1, this.2.1, this.2.2, divDouble_of_pos _ _ this.2.2⟩

/-- C9, at a concrete run: one frame of one second, then a frame of half a
second more, with no key pressed. -/
theorem rollover_divisor_positive_witness :
    (checkState plainText 0 [⟨1000000000, false, false, false⟩]
      ⟨1500000000, false, false, false⟩).time > 1 ∧
    1 ≤ (checkState plainText 0 [⟨1000000000, false, false, false⟩]
      ⟨1500000000, false, false, false⟩).frames :=
  have hgt : (checkState plainText 0 [⟨1000000000, false, false, false⟩]
      ⟨1500000000, false, false, false⟩).time > 1 := by
    norm_num [checkState, run, frameState, rollover, atCheck, processKeys, keyUpHandler,
      keyDownHandler, keySpaceHandler, accumulate, init]
  ⟨hgt, (rollover_divisor_positive plainText 0 [⟨1000000000, false, false, false⟩]
    ⟨1500000000, false, false, false⟩ hgt).2.2.1⟩

/-- C10: at the rollover check of every frame of a run from startup, with
time in exact rationals, `frames` is the number of frames since the most
recent state-changing key event (since startup when there was none), these
are the last `frames` frames of the run, `milliseconds` is 1000 times the sum
of their deltas, and the line printed when the rollover branch runs carries
exactly that sum divided by `frames`. -/
theorem milliseconds_is_sum_since_last_event (ts : DoubleVal → String) (t0 : Int)
    (inputs : List Input) (inp : Input) :
    (checkState ts t0 inputs inp).frames
      = ((sinceLastEvent (frameHistory ts t0 (inputs ++ [inp]))).length : Int) ∧
    sinceLastEvent (frameHistory ts t0 (inputs ++ [inp]))
      = (frameHistory ts t0 (inputs ++ [inp])).take
          (checkState ts t0 inputs inp).frames.toNat ∧
    (checkState ts t0 inputs inp).milliseconds
      = 1000 * deltaSum ((frameHistory ts t0 (inputs ++ [inp])).take
          (checkState ts t0 inputs inp).frames.toNat) ∧
    (rollover ts (checkState ts t0 inputs inp)).2
      = (if (checkState ts t0 inputs inp).time > 1 then
          some (toString (checkState ts t0 inputs inp).instances ++ " " ++
            ts (DoubleVal.finite
              (1000 * deltaSum ((frameHistory ts t0 (inputs ++ [inp])).take
                  (checkState ts t0 inputs inp).frames.toNat)
                / ((checkState ts t0 inputs inp).frames : ℚ))))
        else none) := by
  have hrun : StatsOK (run ts (init t0) inputs) (history ts (init t0) inputs []) :=
    statsOK_run ts inputs (init t0) [] (statsOK_init t0)
  have hc := statsOK_atCheck ts inp _ _ hrun
  rw [← history_run] at hc
  have hfr : (checkState ts t0 inputs inp).frames
      = ((sinceLastEvent (frameHistory ts t0 (inputs ++ [inp]))).length : Int) := hc.1
  have hn : (checkState ts t0 inputs inp).frames.toNat
      = (sinceLastEvent (frameHistory ts t0 (inputs ++ [inp]))).length := by
    rw [hfr]; simp
  have htake : sinceLastEvent (frameHistory ts t0 (inputs ++ [inp]))
      = (frameHistory ts t0 (inputs ++ [inp])).take
          (checkState ts t0 inputs inp).frames.toNat := by
    rw [hn]
    exact takeWhile_eq_take _ _
  have hms : (checkState ts t0 inputs inp).milliseconds
      = 1000 * deltaSum ((frameHistory ts t0 (inputs ++ [inp])).take
          (checkState ts t0 inputs inp).frames.toNat) := by
    rw [← htake]; exact hc.2
  refine ⟨hfr, htake, hms, ?_⟩
  by_cases hgt : (checkState ts t0 inputs inp).time > 1
  · have hs : FramesOK (run ts (init t0) inputs) :=
      framesOK_run ts inputs (init t0) (by simp [FramesOK, init])
    have hpos : 1 ≤ (checkState ts t0 inputs inp).frames :=
      (frames_pos_of_rollover ts inp _ hs hgt).2.2
    rw [if_pos hgt, ← hms]
    unfold rollover
    rw [if_pos hgt]
    simp only
    rw [divDouble_of_pos _ _ hpos]
  · rw [if_neg hgt]
    unfold rollover
    rw [if_neg hgt]

/-! ## The render mode -/

/-- C7: after `n` runs of the toggle-key handler `instancing` has its original
value when `n` is even and the opposite value when `n` is odd; two runs in a
row restore it. -/
theorem toggle_parity (ts : DoubleVal → String) (n : Nat) (s : State) :
    (toggleTimes ts n s).instancing = (if n % 2 = 0 then s.instancing else !s.instancing) ∧
    (keySpaceHandler ts true (keySpaceHandler ts true s)).instancing = s.instancing := by
  refine ⟨?_, toggle_twice ts s⟩
  induction n with
  | zero => simp [toggleTimes]
  | succ k ih =>
    rw [toggleTimes_succ, ih]
    rcases Nat.mod_two_eq_zero_or_one k with hk | hk
    · have : (k + 1) % 2 = 1 := by omega
      simp [hk, this]
    · have : (k + 1) % 2 = 0 := by omega
      simp [hk, this]

/-! ## The draw calls of a frame -/

/-- C6: in every frame of a run from startup, over a pool of `MAX_INSTANCES`
transforms, the 3D section issues, in instanced mode, exactly one instanced
draw call carrying the whole pool and the count `instances`; otherwise
exactly `instances` single draw calls, the `i`-th carrying `transforms[i]`,
in increasing index order, every such `i` being below `MAX_INSTANCES`. -/
theorem frame_draw_commands {M : Type} (ts : DoubleVal → String) (transforms : List M)
    (hlen : transforms.length = MAX_INSTANCES) (t0 : Int) (inputs : List Input)
    (inp : Input) :
    ((lastFrame ts transforms t0 inputs inp).1.instancing = true →
      (lastFrame ts transforms t0 inputs inp).2.draws
        = some [DrawCmd.meshInstanced transforms
            (lastFrame ts transforms t0 inputs inp).1.instances]) ∧
    ((lastFrame ts transforms t0 inputs inp).1.instancing = false →
      ∃ cmds : List (DrawCmd M),
        (lastFrame ts transforms t0 inputs inp).2.draws = some cmds ∧
        (cmds.length : Int) = (lastFrame ts transforms t0 inputs inp).1.instances ∧
        ∀ i : Nat, (i : Int) < (lastFrame ts transforms t0 inputs inp).1.instances →
          i < MAX_INSTANCES ∧
          ∃ t : M, transforms[i]? = some t ∧ cmds[i]? = some (DrawCmd.mesh t)) := by
  have hst : (lastFrame ts transforms t0 inputs inp).1
      = frameState ts inp (run ts (init t0) inputs) := rfl
  have hdr : (lastFrame ts transforms t0 inputs inp).2.draws
      = draw3D transforms (lastFrame ts transforms t0 inputs inp).1 := rfl
  have hok : CountOK (lastFrame ts transforms t0 inputs inp).1 := by
    rw [hst]
    exact countOK_frameState ts inp _ (countOK_run ts inputs _ (countOK_init t0))
  obtain ⟨hlo, hhi, -⟩ := hok
  constructor
  · intro hm
    rw [hdr]
    unfold draw3D
    rw [if_pos hm]
  · intro hm
    have hle : (lastFrame ts transforms t0 inputs inp).1.instances
        ≤ (transforms.length : Int) := by rw [hlen]; exact hhi
    refine ⟨_, by rw [hdr]; exact draw3D_perObject transforms _ hle hm, ?_, ?_⟩
    · rw [List.length_map, List.length_take]
      have : (lastFrame ts transforms t0 inputs inp).1.instances.toNat
          ≤ transforms.length := by omega
      rw [Nat.min_eq_left this]
      omega
    · intro i hi
      have hi2 : i < (lastFrame ts transforms t0 inputs inp).1.instances.toNat := by omega
      have hi3 : i < transforms.length := by omega
      refine ⟨by omega, transforms[i], List.getElem?_eq_getElem hi3, ?_⟩
      rw [List.getElem?_map, List.getElem?_take_of_lt hi2, List.getElem?_eq_getElem hi3]
      rfl

/-- C6, at a concrete frame: the first frame over a pool of 300000 equal
entries, with no key pressed, in per-object mode. -/
theorem frame_draw_commands_witness :
    (List.replicate MAX_INSTANCES (0 : Nat)).length = MAX_INSTANCES ∧
    ∃ cmds : List (DrawCmd Nat),
      (lastFrame plainText (List.replicate MAX_INSTANCES (0 : Nat)) 0 []
        ⟨16000000, false, false, false⟩).2.draws = some cmds ∧
      (cmds.length : Int) = (lastFrame plainText (List.replicate MAX_INSTANCES (0 : Nat)) 0 []
        ⟨16000000, false, false, false⟩).1.instances ∧
      ∀ i : Nat, (i : Int) < (lastFrame plainText (List.replicate MAX_INSTANCES (0 : Nat)) 0 []
          ⟨16000000, false, false, false⟩).1.instances →
        i < MAX_INSTANCES ∧
        ∃ t : Nat, (List.replicate MAX_INSTANCES (0 : Nat))[i]? = some t ∧
          cmds[i]? = some (DrawCmd.mesh t) :=
  ⟨List.length_replicate _ _,
   (frame_draw_commands plainText (List.replicate MAX_INSTANCES (0 : Nat))
      (List.length_replicate _ _) 0 [] ⟨16000000, false, false, false⟩).2
    (by norm_num [lastFrame, frame, rollover, processKeys, keyUpHandler, keyDownHandler,
      keySpaceHandler, accumulate, run, init])⟩

/-! ## The generated pool -/

/-- C8: when every answer of the random source lies within the inclusive
bounds it was asked for, the pool has `MAX_INSTANCES` entries and, for every
index `i` below `MAX_INSTANCES`, entry `i` is built from an integer angle in
degrees between 0 and 10 and integer translation components between -100 and
100. -/
theorem generated_transform_bounds {G : Type} (rnd : G → Int → Int → Int × G) (g : G)
    (hrnd : ∀ (g : G) (lo hi : Int), lo ≤ hi → lo ≤ (rnd g lo hi).1 ∧ (rnd g lo hi).1 ≤ hi)
    (i : Nat) (hi : i < MAX_INSTANCES) :
    (generateTransforms rnd g).length = MAX_INSTANCES ∧
    ∃ t : TransformArgs, (generateTransforms rnd g)[i]? = some t ∧
      (0 ≤ t.angleDeg ∧ t.angleDeg ≤ 10) ∧
      (-100 ≤ t.tx ∧ t.tx ≤ 100) ∧ (-100 ≤ t.ty ∧ t.ty ≤ 100) ∧
      (-100 ≤ t.tz ∧ t.tz ≤ 100) :=
  ⟨generateLoop_length rnd MAX_INSTANCES g,
   generateLoop_inRange rnd hrnd MAX_INSTANCES g i hi⟩

/-- C8, at a concrete random source and the last index of the pool. -/
theorem generated_transform_bounds_witness :
    299999 < MAX_INSTANCES ∧
    ∃ t : TransformArgs, (generateTransforms alternatingSource 0)[299999]? = some t ∧
      (0 ≤ t.angleDeg ∧ t.angleDeg ≤ 10) ∧
      (-100 ≤ t.tx ∧ t.tx ≤ 100) ∧ (-100 ≤ t.ty ∧ t.ty ≤ 100) ∧
      (-100 ≤ t.tz ∧ t.tz ≤ 100) :=
  ⟨by decide,
   (generated_transform_bounds alternatingSource 0 alternatingSource_inRange 299999
     (by decide)).2⟩

end InstancingExperiment
